import Mathlib

/-!
Verification of the stringset merge engine, catalog lookup discipline and
read-side statistics of the translation-management backend
(`transifex/happix/models.py` and `projects/handlers/types/intltool.py`),
via a shallow embedding of the relevant code into Lean.

Modelling conventions:
* Database rows become records; the `Catalog` holds the `SourceEntity` and
  `Translation` tables as lists (insertion order = list order, Django
  appends new rows).
* `Language`, `User` and `Resource` foreign keys are identified by a
  `String` code, an `Option String` and a `Nat` id respectively; only
  their identity matters to the code under study.
* Python exceptions are modelled with `Except Unit`; a raised exception
  propagates unless the code has a handler.  The bare
  `except: transaction.rollback(); return 0,0` in `merge_stringset` is
  modelled by returning the original catalog with counts `(0, 0)`.
* Django's `get_or_create(**lookup, defaults=...)` is modelled as
  `List.find?` on the lookup fields only, appending a fresh row built from
  lookup fields plus defaults when nothing matches.
-/

/-- A row of the `SourceEntity` table: one distinct translatable string of a
resource.  Fields mirror the columns the merge engine touches. -/
structure SourceEntity where
  string : String
  context : String
  resource : Nat
  number : Int
  position : Option Int
  deriving Repr, DecidableEq

/-- A row of the `Translation` table: the realized text of a `SourceEntity`
in a target language.  The `source_entity` foreign key stores the entity row
itself (its key quadruple identifies it uniquely in a well-formed catalog). -/
structure Translation where
  source_entity : SourceEntity
  string : String
  language : String
  resource : Nat
  number : Int
  user : Option String
  deriving Repr, DecidableEq

/-- The durable store: the `SourceEntity` and `Translation` tables. -/
structure Catalog where
  entities : List SourceEntity
  translations : List Translation
  deriving Repr, DecidableEq

/-- One entry of a parsed stringset, as produced by the external parsers:
`j.source_entity`, `j.context`, `j.number`, `j.translation`. -/
structure StringSetEntry where
  source_entity : String
  context : String
  number : Int
  translation : String
  deriving Repr, DecidableEq

/-- A parsed stringset: `stringset.strings`. -/
structure StringSet where
  strings : List StringSetEntry
  deriving Repr, DecidableEq

/-- Lookup predicate of `SourceEntity.objects.get_or_create`: the lookup
fields are `string`, `context`, `resource`, `number` (`position` is only a
default). -/
def seMatches (s c : String) (res : Nat) (n : Int) (e : SourceEntity) : Bool :=
  e.string == s && e.context == c && e.resource == res && e.number == n

/-- `SourceEntity.objects.get_or_create(string=.., context=.., resource=..,
number=.., defaults={'position': 1})`: return the first matching row
(`created = false`), or append a fresh row with `position = 1`
(`created = true`). -/
def getOrCreateSourceEntity (cat : Catalog) (s c : String) (res : Nat) (n : Int) :
    Catalog × SourceEntity × Bool :=
  match cat.entities.find? (seMatches s c res n) with
  | some e => (cat, e, false)
  | none =>
      let e : SourceEntity := ⟨s, c, res, n, some 1⟩
      (⟨cat.entities ++ [e], cat.translations⟩, e, true)

/-- Lookup predicate of `Translation.objects.get_or_create` as called by
`merge_stringset`: the lookup fields are `source_entity`, `language`,
`resource`, `number`.  The translation `string` is only a default, so it is
NOT part of the lookup. -/
def trMatches (se : SourceEntity) (lang : String) (res : Nat) (n : Int)
    (t : Translation) : Bool :=
  t.source_entity == se && t.language == lang && t.resource == res && t.number == n

/-- `Translation.objects.get_or_create(source_entity=.., language=..,
resource=.., number=.., defaults={'string': .., 'user': ..})`: return the
first row matching the quadruple (`created = false`), or append a fresh row
seeded with the incoming text and user (`created = true`). -/
def getOrCreateTranslation (cat : Catalog) (se : SourceEntity) (lang : String)
    (res : Nat) (n : Int) (s : String) (user : Option String) :
    Catalog × Translation × Bool :=
  match cat.translations.find? (trMatches se lang res n) with
  | some t => (cat, t, false)
  | none =>
      let t : Translation := ⟨se, s, lang, res, n, user⟩
      (⟨cat.entities, cat.translations ++ [t]⟩, t, true)

/-- Context normalization in `merge_stringset`: `j.context or "None"` — an
empty (absent) context falls back to the literal placeholder `"None"`. -/
def ctxNorm (j : StringSetEntry) : String :=
  if j.context = "" then "None" else j.context

/-- The per-entry body of `merge_stringset`'s loop, up to the counter logic:
normalize the context (`j.context or "None"`), get-or-create the source
entity, then get-or-create the translation.  Returns the new catalog and the
translation's `created` flag (the Python `created` variable is rebound by the
second `get_or_create`, so only the translation's flag reaches the counter
code). -/
def mergeEntry (lang : String) (user : Option String) (res : Nat)
    (cat : Catalog) (j : StringSetEntry) : Catalog × Bool :=
  let r1 := getOrCreateSourceEntity cat j.source_entity (ctxNorm j) res j.number
  let r2 := getOrCreateTranslation r1.1 r1.2.1 lang res j.number j.translation user
  (r2.1, r2.2.2)

/-- The `for j in stringset.strings` loop of `merge_stringset`, threading
the catalog and the `strings_added` / `strings_updated` counters.
When an entry's translation already existed and `overwrite_translations`
is true, the Python code evaluates `ts.string` where `ts` is an undefined
name (the bound variable is `tr`), so a `NameError` is raised: this is the
`.error ()` branch.  Consequently `strings_updated` is never incremented on
any path that completes. -/
def mergeLoop (lang : String) (user : Option String) (ov : Bool) (res : Nat) :
    List StringSetEntry → Catalog → Nat → Nat →
    Except Unit (Catalog × Nat × Nat)
  | [], cat, a, u => .ok (cat, a, u)
  | j :: rest, cat, a, u =>
      let r := mergeEntry lang user res cat j
      let a' := if r.2 then a + 1 else a
      if !r.2 && ov then .error ()
      else mergeLoop lang user ov res rest r.1 a' u

/-- `Resource.merge_stringset(stringset, target_language, user,
overwrite_translations)` under `@transaction.commit_manually`: run the loop;
on any exception roll the whole transaction back and return `(0, 0)` (the
bare `except` swallows the exception), otherwise commit and return
`(strings_added, strings_updated)`. -/
def merge_stringset (cat : Catalog) (res : Nat) (stringset : StringSet)
    (target_language : String) (user : Option String)
    (overwrite_translations : Bool) : Catalog × Nat × Nat :=
  match mergeLoop target_language user overwrite_translations res
      stringset.strings cat 0 0 with
  | .ok r => r
  | .error _ => (cat, 0, 0)

/-- An uploaded translation file as seen by `merge_translation_file`:
its declared MIME type, storage path and declared language. -/
structure TranslationFile where
  mime_type : String
  storage_path : String
  language : String
  deriving Repr

/-- `Resource.merge_translation_file(translation_file)`:
`PARSER_MAPPING[mime_type].parse_file(...)` followed by `merge_stringset`
with the file's language (default user `None`, default overwrite `True`).
The parsers are external collaborators, so the mapping is a parameter: each
parser is a function from a storage path to `Except Unit StringSet` (a
parser failure raises).  A missing MIME type raises `KeyError`; either
exception propagates (there is no handler), leaving the catalog untouched,
which we model by pairing the `Except` outcome with the resulting catalog. -/
def merge_translation_file
    (parserMapping : List (String × (String → Except Unit StringSet)))
    (cat : Catalog) (res : Nat) (tf : TranslationFile) :
    Except Unit (Nat × Nat) × Catalog :=
  match parserMapping.lookup tf.mime_type with
  | none => (.error (), cat)
  | some parseFile =>
      match parseFile tf.storage_path with
      | .error e => (.error e, cat)
      | .ok stringset =>
          let r := merge_stringset cat res stringset tf.language none true
          (.ok (r.2.1, r.2.2), r.1)

/-- `Resource.translated_strings(language)`: the source entities of the
resource having at least one `Translation` row in the given language. -/
def translated_strings (cat : Catalog) (res : Nat) (lang : String) :
    List SourceEntity :=
  cat.entities.filter (fun e => e.resource == res &&
    cat.translations.any
      (fun t => t.language == lang && t.resource == res && t.source_entity == e))

/-- `Resource.untranslated_strings(language)`: the source entities of the
resource with no `Translation` row in the given language. -/
def untranslated_strings (cat : Catalog) (res : Nat) (lang : String) :
    List SourceEntity :=
  cat.entities.filter (fun e => e.resource == res &&
    !(cat.translations.any
      (fun t => t.language == lang && t.resource == res && t.source_entity == e)))

/-- `Resource.num_translated(language)`. -/
def num_translated (cat : Catalog) (res : Nat) (lang : String) : Nat :=
  (translated_strings cat res lang).length

/-- `Resource.total_entities`. -/
def total_entities (cat : Catalog) (res : Nat) : Nat :=
  (cat.entities.filter (fun e => e.resource == res)).length

/-- `Resource.trans_percent(language)`: `t * 100 / total_entities` with
Python 2 integer (floor) division, returning 100 on `ZeroDivisionError`. -/
def trans_percent (cat : Catalog) (res : Nat) (lang : String) : Nat :=
  let t := num_translated cat res lang
  if total_entities cat res = 0 then 100
  else t * 100 / total_entities cat res

/-- `Resource.untrans_percent(language)`: `100 - trans_percent(language)`. -/
def untrans_percent (cat : Catalog) (res : Nat) (lang : String) : Nat :=
  100 - trans_percent cat res lang

/-! Embedding of `IntltoolHandler.set_stats` (`projects/handlers/types/intltool.py`).
The sub-operations (`tm.delete_stats_for_object`, `tm.intltool_update`,
`tm.set_source_stats`, `set_stats_for_lang`, the browser's `_clean_dir`) live
outside this file's two modules, so their behaviour is an environment: each
call either returns or raises.  `set_stats` itself has no exception handler,
so a raise in any step aborts the remaining steps and propagates.  We record
the sequence of calls actually performed in a trace. -/

/-- One external call performed by `set_stats`, in order of the source. -/
inductive StatsAction where
  | delete_stats : StatsAction
  | intltool_update : StatsAction
  | set_source_stats : Bool → StatsAction
  | set_stats_for_lang : Nat → StatsAction
  | clean_dir : StatsAction
  deriving Repr, DecidableEq

/-- The behaviour of the external collaborators of `set_stats`: whether each
call raises, what `intltool_update` returns (or that it raises), and the
language list returned by `tm.get_langs()`. -/
structure StatsEnv where
  delete_raises : Bool
  intltool_update_result : Except Unit Bool
  set_source_raises : Bool
  langs : List Nat
  lang_raises : Nat → Bool
  clean_dir_raises : Bool

/-- The `for lang in self.tm.get_langs(): self.set_stats_for_lang(lang)` loop:
runs until a call raises; returns the outcome and the calls performed. -/
def runLangStats (env : StatsEnv) : List Nat → Except Unit Unit × List StatsAction
  | [] => (.ok (), [])
  | l :: rest =>
      if env.lang_raises l then (.error (), [.set_stats_for_lang l])
      else
        let r := runLangStats env rest
        (r.1, .set_stats_for_lang l :: r.2)

/-- `IntltoolHandler.set_stats`: delete stats, run `intltool_update` (a
reported failure only flips `isMsgmerged` to `False`), set source stats,
recompute per-language stats, and finally `_clean_dir()` — the cleanup is
the last plain statement of the method, with no `try`/`finally` around the
preceding steps. -/
def set_stats (env : StatsEnv) : Except Unit Unit × List StatsAction :=
  if env.delete_raises then (.error (), [.delete_stats])
  else
    match env.intltool_update_result with
    | .error _ => (.error (), [.delete_stats, .intltool_update])
    | .ok isIntltooled =>
        let isMsgmerged := if isIntltooled = false then false else true
        if env.set_source_raises then
          (.error (), [.delete_stats, .intltool_update, .set_source_stats isMsgmerged])
        else
          let r := runLangStats env env.langs
          match r.1 with
          | .error _ =>
              (.error (),
                [.delete_stats, .intltool_update, .set_source_stats isMsgmerged] ++ r.2)
          | .ok _ =>
              if env.clean_dir_raises then
                (.error (),
                  [.delete_stats, .intltool_update, .set_source_stats isMsgmerged]
                    ++ r.2 ++ [.clean_dir])
              else
                (.ok (),
                  [.delete_stats, .intltool_update, .set_source_stats isMsgmerged]
                    ++ r.2 ++ [.clean_dir])

/-! ### Helper lemmas on lists and the catalog -/

/-- `find?` results survive appending rows on the right. -/
theorem find?_append_some {α : Type} {p : α → Bool} {l l' : List α} {x : α}
    (h : l.find? p = some x) : (l ++ l').find? p = some x := by
  rw [List.find?_append, h]
  rfl

/-- `c'` extends `c` when both tables of `c'` are obtained from those of `c`
by appending rows at the end — exactly what the merge engine does. -/
def Catalog.Grows (c' c : Catalog) : Prop :=
  ∃ es ts, c'.entities = c.entities ++ es ∧ c'.translations = c.translations ++ ts

theorem Catalog.Grows.refl (c : Catalog) : c.Grows c :=
  ⟨[], [], by simp, by simp⟩

theorem Catalog.Grows.trans {c3 c2 c1 : Catalog} (h32 : c3.Grows c2)
    (h21 : c2.Grows c1) : c3.Grows c1 := by
  obtain ⟨es, ts, h1, h2⟩ := h32
  obtain ⟨es', ts', h1', h2'⟩ := h21
  exact ⟨es' ++ es, ts' ++ ts, by rw [h1, h1', List.append_assoc],
    by rw [h2, h2', List.append_assoc]⟩

/-- Characterization of `getOrCreateSourceEntity` when the lookup hits. -/
theorem getOrCreateSourceEntity_of_found {cat : Catalog} {s c : String}
    {res : Nat} {n : Int} {e : SourceEntity}
    (h : cat.entities.find? (seMatches s c res n) = some e) :
    getOrCreateSourceEntity cat s c res n = (cat, e, false) := by
  unfold getOrCreateSourceEntity
  rw [h]

/-- Characterization of `getOrCreateSourceEntity` when the lookup misses. -/
theorem getOrCreateSourceEntity_of_missing {cat : Catalog} {s c : String}
    {res : Nat} {n : Int}
    (h : cat.entities.find? (seMatches s c res n) = none) :
    getOrCreateSourceEntity cat s c res n =
      (⟨cat.entities ++ [⟨s, c, res, n, some 1⟩], cat.translations⟩,
        ⟨s, c, res, n, some 1⟩, true) := by
  unfold getOrCreateSourceEntity
  rw [h]

/-- Characterization of `getOrCreateTranslation` when the lookup hits. -/
theorem getOrCreateTranslation_of_found {cat : Catalog} {se : SourceEntity}
    {lang : String} {res : Nat} {n : Int} {s : String} {user : Option String}
    {t : Translation}
    (h : cat.translations.find? (trMatches se lang res n) = some t) :
    getOrCreateTranslation cat se lang res n s user = (cat, t, false) := by
  unfold getOrCreateTranslation
  rw [h]

/-- Characterization of `getOrCreateTranslation` when the lookup misses. -/
theorem getOrCreateTranslation_of_missing {cat : Catalog} {se : SourceEntity}
    {lang : String} {res : Nat} {n : Int} {s : String} {user : Option String}
    (h : cat.translations.find? (trMatches se lang res n) = none) :
    getOrCreateTranslation cat se lang res n s user =
      (⟨cat.entities, cat.translations ++ [⟨se, s, lang, res, n, user⟩]⟩,
        ⟨se, s, lang, res, n, user⟩, true) := by
  unfold getOrCreateTranslation
  rw [h]

theorem getOrCreateSourceEntity_grows (cat : Catalog) (s c : String)
    (res : Nat) (n : Int) : (getOrCreateSourceEntity cat s c res n).1.Grows cat := by
  cases h : cat.entities.find? (seMatches s c res n) with
  | some e => rw [getOrCreateSourceEntity_of_found h]; exact Catalog.Grows.refl cat
  | none => rw [getOrCreateSourceEntity_of_missing h]; exact ⟨[⟨s, c, res, n, some 1⟩], [], rfl, by simp⟩

theorem getOrCreateTranslation_grows (cat : Catalog) (se : SourceEntity)
    (lang : String) (res : Nat) (n : Int) (s : String) (user : Option String) :
    (getOrCreateTranslation cat se lang res n s user).1.Grows cat := by
  cases h : cat.translations.find? (trMatches se lang res n) with
  | some t => rw [getOrCreateTranslation_of_found h]; exact Catalog.Grows.refl cat
  | none => rw [getOrCreateTranslation_of_missing h]; exact ⟨[], [⟨se, s, lang, res, n, user⟩], by simp, rfl⟩

theorem mergeEntry_grows (lang : String) (user : Option String) (res : Nat)
    (cat : Catalog) (j : StringSetEntry) :
    (mergeEntry lang user res cat j).1.Grows cat := by
  unfold mergeEntry
  exact (getOrCreateTranslation_grows _ _ _ _ _ _ _).trans
    (getOrCreateSourceEntity_grows _ _ _ _ _)

/-- The catalog already fully accounts for stringset entry `j`: its source
entity row is findable under the merge key, and that entity has a findable
translation row for the target language and plural number. -/
def entryDone (lang : String) (res : Nat) (c : Catalog) (j : StringSetEntry) : Prop :=
  ∃ e, c.entities.find? (seMatches j.source_entity (ctxNorm j) res j.number) = some e ∧
    (c.translations.find? (trMatches e lang res j.number)).isSome = true

/-- `entryDone` is stable under appending rows: the found rows stay found. -/
theorem entryDone_grows {lang : String} {res : Nat} {c c' : Catalog}
    {j : StringSetEntry} (hd : entryDone lang res c j) (hg : c'.Grows c) :
    entryDone lang res c' j := by
  obtain ⟨e, h1, h2⟩ := hd
  obtain ⟨es, ts, hg1, hg2⟩ := hg
  obtain ⟨t, ht⟩ := Option.isSome_iff_exists.mp h2
  refine ⟨e, ?_, ?_⟩
  · rw [hg1]; exact find?_append_some h1
  · rw [hg2, find?_append_some ht]; rfl

/-- After `getOrCreateSourceEntity`, the returned entity is findable under
the lookup key in the resulting catalog. -/
theorem getOrCreateSourceEntity_finds (cat : Catalog) (s c : String)
    (res : Nat) (n : Int) :
    (getOrCreateSourceEntity cat s c res n).1.entities.find? (seMatches s c res n) =
      some (getOrCreateSourceEntity cat s c res n).2.1 := by
  cases h : cat.entities.find? (seMatches s c res n) with
  | some e => rw [getOrCreateSourceEntity_of_found h]; exact h
  | none =>
      rw [getOrCreateSourceEntity_of_missing h]
      dsimp only
      rw [List.find?_append, h]
      simp [seMatches]

/-- `getOrCreateSourceEntity` never touches the translation table. -/
theorem getOrCreateSourceEntity_translations (cat : Catalog) (s c : String)
    (res : Nat) (n : Int) :
    (getOrCreateSourceEntity cat s c res n).1.translations = cat.translations := by
  cases h : cat.entities.find? (seMatches s c res n) with
  | some e => rw [getOrCreateSourceEntity_of_found h]
  | none => rw [getOrCreateSourceEntity_of_missing h]

/-- After `getOrCreateTranslation`, some row matching the lookup quadruple
is findable in the resulting catalog. -/
theorem getOrCreateTranslation_finds (cat : Catalog) (se : SourceEntity)
    (lang : String) (res : Nat) (n : Int) (s : String) (user : Option String) :
    ((getOrCreateTranslation cat se lang res n s user).1.translations.find?
      (trMatches se lang res n)).isSome = true := by
  cases h : cat.translations.find? (trMatches se lang res n) with
  | some t => rw [getOrCreateTranslation_of_found h]; dsimp only; rw [h]; rfl
  | none =>
      rw [getOrCreateTranslation_of_missing h]
      dsimp only
      rw [List.find?_append, h]
      simp [trMatches]

/-- `getOrCreateTranslation` never touches the entity table. -/
theorem getOrCreateTranslation_entities (cat : Catalog) (se : SourceEntity)
    (lang : String) (res : Nat) (n : Int) (s : String) (user : Option String) :
    (getOrCreateTranslation cat se lang res n s user).1.entities = cat.entities := by
  cases h : cat.translations.find? (trMatches se lang res n) with
  | some t => rw [getOrCreateTranslation_of_found h]
  | none => rw [getOrCreateTranslation_of_missing h]

/-- After `mergeEntry` processes `j`, the catalog accounts for `j`. -/
theorem mergeEntry_done (lang : String) (user : Option String) (res : Nat)
    (cat : Catalog) (j : StringSetEntry) :
    entryDone lang res (mergeEntry lang user res cat j).1 j := by
  refine ⟨(getOrCreateSourceEntity cat j.source_entity (ctxNorm j) res j.number).2.1, ?_, ?_⟩
  · simp only [mergeEntry]
    rw [getOrCreateTranslation_entities]
    exact getOrCreateSourceEntity_finds cat j.source_entity (ctxNorm j) res j.number
  · simp only [mergeEntry]
    exact getOrCreateTranslation_finds _ _ lang res j.number j.translation user

/-- Processing an already-accounted-for entry leaves the catalog unchanged
and reports `created = false`, for any committing user. -/
theorem mergeEntry_of_done {lang : String} {res : Nat} {c : Catalog}
    {j : StringSetEntry} (user : Option String) (hd : entryDone lang res c j) :
    mergeEntry lang user res c j = (c, false) := by
  obtain ⟨e, h1, h2⟩ := hd
  obtain ⟨t, ht⟩ := Option.isSome_iff_exists.mp h2
  simp only [mergeEntry, getOrCreateSourceEntity_of_found h1,
    getOrCreateTranslation_of_found ht]

/-- An `.ok` run of the merge loop only appends rows to the catalog. -/
theorem mergeLoop_ok_grows (lang : String) (user : Option String) (ov : Bool)
    (res : Nat) :
    ∀ (l : List StringSetEntry) (cat : Catalog) (a u : Nat) (r : Catalog × Nat × Nat),
      mergeLoop lang user ov res l cat a u = .ok r → r.1.Grows cat := by
  intro l
  induction l with
  | nil =>
      intro cat a u r h
      simp only [mergeLoop] at h
      cases h
      exact Catalog.Grows.refl cat
  | cons j rest ih =>
      intro cat a u r h
      simp only [mergeLoop] at h
      cases hc : (mergeEntry lang user res cat j).2 with
      | true =>
          rw [hc] at h
          simp at h
          exact (ih _ _ _ _ h).trans (mergeEntry_grows lang user res cat j)
      | false =>
          rw [hc] at h
          simp at h
          cases ov with
          | true => simp at h
          | false =>
              simp at h
              exact (ih _ _ _ _ h).trans (mergeEntry_grows lang user res cat j)

/-- Every entry processed by an `.ok` run of the loop is accounted for in
the final catalog. -/
theorem mergeLoop_ok_done (lang : String) (user : Option String) (ov : Bool)
    (res : Nat) :
    ∀ (l : List StringSetEntry) (cat : Catalog) (a u : Nat) (r : Catalog × Nat × Nat),
      mergeLoop lang user ov res l cat a u = .ok r →
      ∀ j ∈ l, entryDone lang res r.1 j := by
  intro l
  induction l with
  | nil => intro cat a u r _ j hj; cases hj
  | cons j0 rest ih =>
      intro cat a u r h j hj
      simp only [mergeLoop] at h
      cases hc : (mergeEntry lang user res cat j0).2 with
      | true =>
          rw [hc] at h
          simp at h
          rcases List.mem_cons.mp hj with rfl | hj'
          · exact entryDone_grows (mergeEntry_done lang user res cat j)
              (mergeLoop_ok_grows lang user ov res rest _ _ _ _ h)
          · exact ih _ _ _ _ h j hj'
      | false =>
          rw [hc] at h
          simp at h
          cases ov with
          | true => simp at h
          | false =>
              simp at h
              rcases List.mem_cons.mp hj with rfl | hj'
              · exact entryDone_grows (mergeEntry_done lang user res cat j)
                  (mergeLoop_ok_grows lang user false res rest _ _ _ _ h)
              · exact ih _ _ _ _ h j hj'

/-- With `overwrite_translations = false` the loop never reaches the code
that evaluates the undefined name `ts`, so it cannot raise. -/
theorem mergeLoop_false_ok (lang : String) (user : Option String) (res : Nat) :
    ∀ (l : List StringSetEntry) (cat : Catalog) (a u : Nat),
      ∃ r, mergeLoop lang user false res l cat a u = .ok r := by
  intro l
  induction l with
  | nil => intro cat a u; exact ⟨(cat, a, u), rfl⟩
  | cons j rest ih =>
      intro cat a u
      simp only [mergeLoop, Bool.and_false, Bool.false_eq_true, if_false]
      exact ih _ _ _

/-- Re-processing a list of already-accounted-for entries with
`overwrite_translations = false` is a complete no-op: same catalog, same
counters. -/
theorem mergeLoop_false_of_done (lang : String) (user : Option String) (res : Nat) :
    ∀ (l : List StringSetEntry) (cat : Catalog) (a u : Nat),
      (∀ j ∈ l, entryDone lang res cat j) →
      mergeLoop lang user false res l cat a u = .ok (cat, a, u) := by
  intro l
  induction l with
  | nil => intro cat a u _; rfl
  | cons j rest ih =>
      intro cat a u hd
      have h0 : mergeEntry lang user res cat j = (cat, false) :=
        mergeEntry_of_done user (hd j (List.mem_cons_self j rest))
      simp only [mergeLoop, h0, Bool.and_false, Bool.false_eq_true, if_false]
      exact ih cat a u (fun x hx => hd x (List.mem_cons_of_mem j hx))

/-- An `.ok` run of the loop adds at most one count per processed entry and
never increments the update counter. -/
theorem mergeLoop_counts (lang : String) (user : Option String) (ov : Bool)
    (res : Nat) :
    ∀ (l : List StringSetEntry) (cat : Catalog) (a u : Nat) (r : Catalog × Nat × Nat),
      mergeLoop lang user ov res l cat a u = .ok r →
      r.2.1 + r.2.2 ≤ (a + u) + l.length := by
  intro l
  induction l with
  | nil =>
      intro cat a u r h
      simp only [mergeLoop] at h
      cases h
      simp
  | cons j rest ih =>
      intro cat a u r h
      simp only [mergeLoop] at h
      cases hc : (mergeEntry lang user res cat j).2 with
      | true =>
          rw [hc] at h
          simp at h
          have := ih _ _ _ _ h
          simp only [List.length_cons]
          omega
      | false =>
          rw [hc] at h
          simp at h
          cases ov with
          | true => simp at h
          | false =>
              simp at h
              have := ih _ _ _ _ h
              simp only [List.length_cons]
              omega

/-- Translated entities of a resource are a sub-filter of all its entities. -/
theorem num_translated_le_total (cat : Catalog) (res : Nat) (lang : String) :
    num_translated cat res lang ≤ total_entities cat res := by
  simp only [num_translated, translated_strings, total_entities]
  rw [← List.countP_eq_length_filter, ← List.countP_eq_length_filter]
  apply List.countP_mono_left
  intro e _ h
  simp only [Bool.and_eq_true] at h
  exact h.1

/-- The translated percentage never exceeds 100. -/
theorem trans_percent_le_100 (cat : Catalog) (res : Nat) (lang : String) :
    trans_percent cat res lang ≤ 100 := by
  simp only [trans_percent]
  split
  · exact le_refl 100
  · rename_i h
    have hle := num_translated_le_total cat res lang
    calc num_translated cat res lang * 100 / total_entities cat res
        ≤ total_entities cat res * 100 / total_entities cat res :=
          Nat.div_le_div_right (Nat.mul_le_mul_right 100 hle)
      _ = 100 := by
          rw [Nat.mul_comm]
          exact Nat.mul_div_cancel 100 (Nat.pos_of_ne_zero h)

/-- When no per-language recompute raises, the language loop completes. -/
theorem runLangStats_ok (env : StatsEnv) :
    ∀ (l : List Nat), (∀ x ∈ l, env.lang_raises x = false) →
      (runLangStats env l).1 = .ok () := by
  intro l
  induction l with
  | nil => intro _; rfl
  | cons x rest ih =>
      intro h
      have hx : env.lang_raises x = false := h x (List.mem_cons_self x rest)
      simp only [runLangStats, hx, Bool.false_eq_true, if_false]
      exact ih (fun y hy => h y (List.mem_cons_of_mem x hy))

/-! ### Shared concrete fixtures -/

/-- The entity created by merging source "Hello" with empty context into
resource 0 (context normalized to the placeholder). -/
def e0 : SourceEntity := ⟨"Hello", "None", 0, 0, some 1⟩

/-- An existing French translation row for `e0` with text "Bonjour". -/
def t0 : Translation := ⟨e0, "Bonjour", "fr", 0, 0, none⟩

/-- A catalog already holding `e0` and its French translation `t0`. -/
def cat1 : Catalog := ⟨[e0], [t0]⟩

/-- A two-entry stringset whose first entry is new and whose second entry
collides with the stored translation text of `t0`. -/
def ssC2 : StringSet :=
  ⟨[⟨"World", "", 0, "Monde"⟩, ⟨"Hello", "", 0, "Salut"⟩]⟩

/-! ### Claim theorems -/

/-- Claim C1: the spec says that with overwrite on, an entry whose
translation row exists with a different stored text yields updatedCount = 1
and the stored text becomes the entry text.  The code cannot do this: the
update branch reads the undefined name `ts` (the bound variable is `tr`),
so it raises `NameError`, the bare `except` rolls the merge back, and the
call returns (0, 0) with the old text "Bonjour" still stored instead of
(0, 1) with "Salut".  This theorem evaluates the code at that failing
input. -/
theorem merge_overwrite_faults_on_existing_translation :
    merge_stringset cat1 0 ⟨[⟨"Hello", "", 0, "Salut"⟩]⟩ "fr" none true = (cat1, 0, 0) ∧
    cat1.translations.map Translation.string = ["Bonjour"] := by
  decide

/-- Claim C2, counterexample: a fault mid-merge (the `NameError` raised on
the second entry of `ssC2`, after the first entry was already applied) does
roll the batch back to `cat1` — but no error reaches the caller: the result
is byte-identical to merging an empty stringset, so a failed merge is NOT
distinguishable from "nothing to merge", refuting the propagated-error part
of the claim. -/
theorem merge_fault_indistinguishable_cex :
    mergeLoop "fr" none true 0 ssC2.strings cat1 0 0 = .error () ∧
    merge_stringset cat1 0 ssC2 "fr" none true =
      merge_stringset cat1 0 ⟨[]⟩ "fr" none true :=
  ⟨rfl, by decide⟩

/-- Claim C2, amended: whenever the loop faults on any entry, the whole
batch rolls back (the catalog equals its pre-merge state) and the function
reports (0, 0); but the bare `except` swallows the exception, so the result
equals that of merging an empty stringset — no error is propagated. -/
theorem merge_fault_rolls_back_silently (cat : Catalog) (res : Nat)
    (ss : StringSet) (lang : String) (user : Option String) (ov : Bool)
    (h : mergeLoop lang user ov res ss.strings cat 0 0 = .error ()) :
    merge_stringset cat res ss lang user ov = (cat, 0, 0) ∧
    merge_stringset cat res ss lang user ov =
      merge_stringset cat res ⟨[]⟩ lang user ov := by
  have h1 : merge_stringset cat res ss lang user ov = (cat, 0, 0) := by
    simp only [merge_stringset, h]
  exact ⟨h1, by rw [h1]; rfl⟩

/-- Claim C2, witness for the amended theorem at a concrete faulting merge. -/
theorem merge_fault_rolls_back_silently_witness :
    merge_stringset cat1 0 ssC2 "fr" none true = (cat1, 0, 0) ∧
    merge_stringset cat1 0 ssC2 "fr" none true =
      merge_stringset cat1 0 ⟨[]⟩ "fr" none true :=
  merge_fault_rolls_back_silently cat1 0 ssC2 "fr" none true rfl

/-- Claim C3, counterexample: the incoming text "Salut" differs from the
stored text of `t0`, yet the lookup finds the existing row
(`created = false`) and creates nothing — refuting "a new Translation row
is always created" when the incoming text is not byte-identical. -/
theorem translation_lookup_ignores_text_cex :
    t0.string ≠ "Salut" ∧
    getOrCreateTranslation cat1 e0 "fr" 0 0 "Salut" none = (cat1, t0, false) := by
  decide

/-- Claim C3, amended: `getOrCreateTranslation` as called by the merge looks
up by (source_entity, language, resource, number) only — the incoming text
is NOT part of the lookup key (it sits in `defaults`).  An existing row for
that quadruple is returned regardless of its stored text, leaving the
catalog unchanged; a fresh row seeded with the incoming text is appended
exactly when no row exists for the quadruple. -/
theorem getOrCreateTranslation_keyed_without_text (cat : Catalog)
    (se : SourceEntity) (lang : String) (res : Nat) (n : Int) (s : String)
    (user : Option String) :
    (((getOrCreateTranslation cat se lang res n s user).2.2 = false) ↔
      ∃ t ∈ cat.translations,
        t.source_entity = se ∧ t.language = lang ∧ t.resource = res ∧ t.number = n) ∧
    ((getOrCreateTranslation cat se lang res n s user).2.2 = false →
      (getOrCreateTranslation cat se lang res n s user).1 = cat) ∧
    ((getOrCreateTranslation cat se lang res n s user).2.2 = true →
      (getOrCreateTranslation cat se lang res n s user).1.translations =
        cat.translations ++ [⟨se, s, lang, res, n, user⟩]) := by
  cases h : cat.translations.find? (trMatches se lang res n) with
  | some t =>
      rw [getOrCreateTranslation_of_found h]
      have hm := List.mem_of_find?_eq_some h
      have hp := List.find?_some h
      simp only [trMatches, Bool.and_eq_true, beq_iff_eq] at hp
      refine ⟨⟨fun _ => ⟨t, hm, hp.1.1.1, hp.1.1.2, hp.1.2, hp.2⟩, fun _ => rfl⟩,
        fun _ => rfl, fun hf => ?_⟩
      simp at hf
  | none =>
      rw [getOrCreateTranslation_of_missing h]
      refine ⟨⟨fun hf => by simp at hf, ?_⟩, fun hf => by simp at hf, fun _ => rfl⟩
      rintro ⟨t, hm, h1, h2, h3, h4⟩
      have hs : (cat.translations.find? (trMatches se lang res n)).isSome = true :=
        List.find?_isSome.mpr ⟨t, hm, by simp [trMatches, h1, h2, h3, h4]⟩
      rw [h] at hs
      simp at hs

/-- Claim C3, witness for the amended theorem: an incoming text different
from every stored one still resolves to the existing row, catalog
unchanged. -/
theorem getOrCreateTranslation_keyed_without_text_witness :
    (getOrCreateTranslation cat1 e0 "fr" 0 0 "Bonsoir" none).1 = cat1 :=
  (getOrCreateTranslation_keyed_without_text cat1 e0 "fr" 0 0 "Bonsoir" none).2.1
    (by decide)

/-- Claim C4: merging the same stringset twice with overwrite off is
idempotent — the second run returns addedCount = 0, updatedCount = 0 and a
catalog identical to the one after the first run, for every prior catalog,
stringset, resource, language and user. -/
theorem merge_stringset_idempotent (cat : Catalog) (res : Nat) (ss : StringSet)
    (lang : String) (user : Option String) :
    merge_stringset (merge_stringset cat res ss lang user false).1 res ss lang user false =
      ((merge_stringset cat res ss lang user false).1, 0, 0) := by
  obtain ⟨r, hr⟩ := mergeLoop_false_ok lang user res ss.strings cat 0 0
  have h1 : merge_stringset cat res ss lang user false = r := by
    simp only [merge_stringset, hr]
  have hdone : ∀ j ∈ ss.strings, entryDone lang res r.1 j :=
    mergeLoop_ok_done lang user false res ss.strings cat 0 0 r hr
  have h2 := mergeLoop_false_of_done lang user res ss.strings r.1 0 0 hdone
  rw [h1]
  simp only [merge_stringset, h2]

/-- Claim C5, counterexample: when `intltool_update` raises (rather than
returning a failure boolean), `set_stats` stops right there — the
`_clean_dir()` call at the end of the method never runs, so cleanup is
best-effort, not guaranteed. -/
def envExtractionRaises : StatsEnv :=
  ⟨false, .error (), false, [7], fun _ => false, false⟩

/-- Claim C5, counterexample theorem: with a raising extraction step the
performed-call trace stops before cleanup and contains no `clean_dir`. -/
theorem set_stats_cleanup_skipped_cex :
    (set_stats envExtractionRaises).2 = [.delete_stats, .intltool_update] ∧
    StatsAction.clean_dir ∉ (set_stats envExtractionRaises).2 := by
  decide

/-- Claim C5, amended: the cleanup step does run whenever the extraction
tool reports success or failure as a boolean and no step of the method
raises; if any step raises, the remaining steps — cleanup included — are
skipped. -/
theorem set_stats_cleanup_when_no_raise (env : StatsEnv) (b : Bool)
    (h1 : env.delete_raises = false)
    (h2 : env.intltool_update_result = .ok b)
    (h3 : env.set_source_raises = false)
    (h4 : ∀ l ∈ env.langs, env.lang_raises l = false) :
    StatsAction.clean_dir ∈ (set_stats env).2 := by
  have hok : (runLangStats env env.langs).1 = .ok () :=
    runLangStats_ok env env.langs h4
  simp only [set_stats, h1, h2, h3, Bool.false_eq_true, if_false, hok]
  cases env.clean_dir_raises <;> simp

/-- Claim C5, witness: a run where extraction reported failure (boolean
`false`) still performs the cleanup call. -/
def envCleanRun : StatsEnv := ⟨false, .ok false, false, [3], fun _ => false, false⟩

/-- Claim C5, witness theorem for the amended claim. -/
theorem set_stats_cleanup_when_no_raise_witness :
    StatsAction.clean_dir ∈ (set_stats envCleanRun).2 :=
  set_stats_cleanup_when_no_raise envCleanRun false rfl rfl rfl (by decide)

/-- Claim C6: merging the one-entry stringset source "Hello", empty
context, number 0, translation "Bonjour" into an empty resource with
target language fr returns (added = 1, updated = 0) and leaves exactly one
SourceEntity whose context is the literal placeholder "None" and exactly
one French Translation with text "Bonjour". -/
theorem merge_single_new_entry_scenario :
    merge_stringset ⟨[], []⟩ 0 ⟨[⟨"Hello", "", 0, "Bonjour"⟩]⟩ "fr" none true =
      (⟨[⟨"Hello", "None", 0, 0, some 1⟩],
        [⟨⟨"Hello", "None", 0, 0, some 1⟩, "Bonjour", "fr", 0, 0, none⟩]⟩, 1, 0) := by
  decide

/-- Claim C7: for every catalog, resource, stringset, language, user and
overwrite flag, addedCount + updatedCount never exceeds the number of
stringset entries (each entry increments at most one counter, and a faulted
merge reports (0, 0)). -/
theorem merge_stringset_counts_le (cat : Catalog) (res : Nat) (ss : StringSet)
    (lang : String) (user : Option String) (ov : Bool) :
    (merge_stringset cat res ss lang user ov).2.1 +
      (merge_stringset cat res ss lang user ov).2.2 ≤ ss.strings.length := by
  cases h : mergeLoop lang user ov res ss.strings cat 0 0 with
  | ok r =>
      have hc := mergeLoop_counts lang user ov res ss.strings cat 0 0 r h
      simp only [merge_stringset, h]
      simpa using hc
  | error e =>
      simp only [merge_stringset, h]
      simp

/-- A parser that always fails, standing for an external parser raising on
a malformed file. -/
def failingParse : String → Except Unit StringSet := fun _ => .error ()

/-- The uploaded file used in the C8 witness. -/
def tfC8 : TranslationFile := ⟨"text/x-po", "/tmp/u-f.po", "fr"⟩

/-- Claim C8: `merge_translation_file` on a file whose MIME type has no
parser (KeyError on the mapping) or whose parser raises aborts before any
catalog mutation — the catalog is returned unchanged — and surfaces the
error to the caller, never the `.ok` result of an empty merge. -/
theorem merge_translation_file_aborts
    (pm : List (String × (String → Except Unit StringSet)))
    (cat : Catalog) (res : Nat) (tf : TranslationFile)
    (h : pm.lookup tf.mime_type = none ∨
      ∃ p, pm.lookup tf.mime_type = some p ∧ p tf.storage_path = .error ()) :
    merge_translation_file pm cat res tf = (.error (), cat) := by
  rcases h with h | ⟨p, hp, he⟩
  · simp only [merge_translation_file, h]
  · simp only [merge_translation_file, hp, he]

/-- Claim C8, witness: an unrecognized MIME type (empty parser mapping) and
a raising parser each abort with an error and an untouched catalog. -/
theorem merge_translation_file_aborts_witness :
    merge_translation_file [] cat1 0 tfC8 = (.error (), cat1) ∧
    merge_translation_file [("text/x-po", failingParse)] cat1 0 tfC8 =
      (.error (), cat1) :=
  ⟨merge_translation_file_aborts [] cat1 0 tfC8 (Or.inl rfl),
   merge_translation_file_aborts [("text/x-po", failingParse)] cat1 0 tfC8
     (Or.inr ⟨failingParse, rfl, rfl⟩)⟩

/-- A catalog with three entities of resource 0, one of them French-
translated: used to witness the floor computation (100 / 3 = 33). -/
def catC9 : Catalog :=
  ⟨[⟨"a", "None", 0, 0, none⟩, ⟨"b", "None", 0, 0, none⟩, ⟨"c", "None", 0, 0, none⟩],
   [⟨⟨"a", "None", 0, 0, none⟩, "x", "fr", 0, 0, none⟩]⟩

/-- Claim C9: `trans_percent` returns the integer floor of
translated * 100 / total (Python 2 integer division), and returns exactly
100 when the resource has no source entities (the `ZeroDivisionError`
guard), for every catalog, resource and language. -/
theorem trans_percent_floor_spec (cat : Catalog) (res : Nat) (lang : String) :
    (total_entities cat res = 0 → trans_percent cat res lang = 100) ∧
    (total_entities cat res ≠ 0 →
      trans_percent cat res lang =
        Nat.floor ((num_translated cat res lang : ℚ) * 100 / (total_entities cat res : ℚ))) := by
  constructor
  · intro h
    simp [trans_percent, h]
  · intro h
    have hcast : ((num_translated cat res lang : ℚ)) * 100 =
        ((num_translated cat res lang * 100 : ℕ) : ℚ) := by
      push_cast
      ring
    rw [hcast, Rat.natFloor_natCast_div_natCast]
    simp [trans_percent, h]

/-- Claim C9, witness: 1 of 3 entities translated gives floor(100/3) = 33,
and an empty resource reports 100 by convention. -/
theorem trans_percent_floor_spec_witness :
    trans_percent catC9 0 "fr" =
      Nat.floor ((num_translated catC9 0 "fr" : ℚ) * 100 / (total_entities catC9 0 : ℚ)) ∧
    trans_percent ⟨[], []⟩ 0 "fr" = 100 :=
  ⟨(trans_percent_floor_spec catC9 0 "fr").2 (by decide),
   (trans_percent_floor_spec ⟨[], []⟩ 0 "fr").1 (by decide)⟩

/-- Claim C10: `untrans_percent` is exactly the complement
100 - trans_percent (not an independent floored division), so the two
percentages always sum to exactly 100, for every catalog, resource and
language. -/
theorem untrans_percent_complement (cat : Catalog) (res : Nat) (lang : String) :
    untrans_percent cat res lang = 100 - trans_percent cat res lang ∧
    trans_percent cat res lang + untrans_percent cat res lang = 100 := by
  refine ⟨rfl, ?_⟩
  have h := trans_percent_le_100 cat res lang
  simp only [untrans_percent]
  omega
